import Mathlib

/-!
Verification of the MQTT admin panel of the esp12f_ds18b20_temp_sensor
repository (admin-panel/mqtt_client.py, admin-panel/app.py,
admin-panel/config.py), as a shallow embedding in Lean.

Modelling conventions:
* Python dicts are association lists in insertion order; assigning to an
  existing key replaces the value in place, assigning a fresh key appends.
* ISO-8601 timestamp strings are represented by the rational number of
  epoch seconds they denote (isoformat is injective on instants, so no
  information relevant to the claims is lost).
* json.loads is modelled by an executable recursive-descent parser over
  the character list, following the json module grammar: JSON numbers are
  exact rationals (CPython parses non-integer numbers to binary floats;
  no claim depends on float rounding), NaN/Infinity extensions and lone
  surrogate escapes are outside the model.
* bytes.decode with the strict utf-8 codec is modelled by an executable
  UTF-8 decoder that rejects overlong forms, surrogates, values above
  0x10FFFF and truncated sequences, as CPython does.
* Python exceptions are modelled with Except; a caught exception class
  corresponds to a handled error constructor.
-/

/-- A decoded Python JSON value: the possible results of json.loads. -/
inductive Json where
  | null
  | bool (b : Bool)
  | num (q : ℚ)
  | str (s : String)
  | arr (elems : List Json)
  | obj (fields : List (String × Json))

/-- Python dict lookup (by string key, first binding wins; bindings are
unique by construction of dictSet). -/
def dictGet {α : Type} : List (String × α) → String → Option α
  | [], _ => none
  | (k, v) :: rest, key => if k = key then some v else dictGet rest key

/-- Python dict assignment: replace in place if the key is present
(keeping its position, as CPython does), else append. -/
def dictSet {α : Type} : List (String × α) → String → α → List (String × α)
  | [], key, v => [(key, v)]
  | (k, w) :: rest, key, v =>
      if k = key then (k, v) :: rest else (k, w) :: dictSet rest key v

/-- Python membership test (key in dict). -/
def dictHas {α : Type} (d : List (String × α)) (key : String) : Bool :=
  (dictGet d key).isSome

/-- Python str.split for a one-character separator: "a//b".split("/") is
["a", "", "b"] and "".split("/") is [""]. -/
def pySplitChar (sep : Char) : List Char → List (List Char)
  | [] => [[]]
  | c :: rest =>
      let r := pySplitChar sep rest
      if c = sep then [] :: r
      else match r with
        | [] => [[c]]
        | seg :: segs => (c :: seg) :: segs

/-- Python str.split("/") on a String, yielding Strings. -/
def pySplit (s : String) : List String :=
  (pySplitChar '/' s.data).map fun cs => String.mk cs

/-- Python str.replace for one-character pattern and replacement
(replaces every occurrence). -/
def pyReplaceChar (old new : Char) (s : String) : String :=
  String.mk (s.data.map fun c => if c = old then new else c)

/-- JSON whitespace accepted by the json module between tokens. -/
def isJsonWs (c : Char) : Bool :=
  c = ' ' || c = '\t' || c = '\n' || c = '\r'

/-- Drop leading JSON whitespace. -/
def skipWs : List Char → List Char
  | [] => []
  | c :: rest => if isJsonWs c then skipWs rest else c :: rest

/-- Decimal digit value of a character, if it is a digit. -/
def digitVal (c : Char) : Option Nat :=
  if 48 ≤ c.toNat && c.toNat ≤ 57 then some (c.toNat - 48) else none

/-- Hexadecimal digit value of a character, if it is one. -/
def hexVal (c : Char) : Option Nat :=
  if 48 ≤ c.toNat && c.toNat ≤ 57 then some (c.toNat - 48)
  else if 97 ≤ c.toNat && c.toNat ≤ 102 then some (c.toNat - 87)
  else if 65 ≤ c.toNat && c.toNat ≤ 70 then some (c.toNat - 55)
  else none

/-- Take a maximal run of decimal digits. -/
def takeDigits : List Char → (List Nat × List Char)
  | [] => ([], [])
  | c :: rest =>
      match digitVal c with
      | some d => let (ds, r) := takeDigits rest; (d :: ds, r)
      | none => ([], c :: rest)

/-- Fold digit values into a natural number. -/
def digitsToNat (ds : List Nat) : Nat :=
  ds.foldl (fun acc d => acc * 10 + d) 0

/-- Parse the integer part of a JSON number: 0, or a nonzero digit
followed by digits (the json module rejects other leading zeros at this
level; trailing text is rejected by the top-level extra-data check). -/
def parseIntPart : List Char → Option (Nat × List Char)
  | [] => none
  | c :: rest =>
      match digitVal c with
      | none => none
      | some 0 => some (0, rest)
      | some d =>
          let (ds, r) := takeDigits rest
          some (digitsToNat (d :: ds), r)

/-- Parse a JSON number per the json module grammar
(minus? int frac? exp?). Integer literals are built by a pure cast so
that concrete runs reduce inside the kernel. -/
def parseNumber (cs : List Char) : Option (ℚ × List Char) :=
  let (neg, cs1) :=
    match cs with
    | '-' :: rest => (true, rest)
    | _ => (false, cs)
  match parseIntPart cs1 with
  | none => none
  | some (ip, cs2) =>
    let (fr, cs3) :=
      match cs2 with
      | '.' :: rest =>
          match takeDigits rest with
          | ([], _) => (none, cs2)
          | (ds, r) => (some ds, r)
      | _ => (none, cs2)
    match cs2, fr with
    | '.' :: _, none => none
    | _, _ =>
      let (ex, cs4) :=
        match cs3 with
        | 'e' :: rest => (some rest, cs3)
        | 'E' :: rest => (some rest, cs3)
        | _ => (none, cs3)
      match ex with
      | none =>
        let base : ℤ := if neg then -(ip : ℤ) else (ip : ℤ)
        match fr with
        | none => some (((base : ℚ)), cs4)
        | some ds =>
            let mant : ℤ := base * (10 : ℤ) ^ ds.length +
              (if neg then -(digitsToNat ds : ℤ) else (digitsToNat ds : ℤ))
            some ((mant : ℚ) / (10 : ℚ) ^ ds.length, cs4)
      | some rest =>
        let (esign, rest2) :=
          match rest with
          | '-' :: r => (true, r)
          | '+' :: r => (false, r)
          | _ => (false, rest)
        match takeDigits rest2 with
        | ([], _) => none
        | (eds, r) =>
            let e : ℕ := digitsToNat eds
            let fds := fr.getD []
            let mant : ℤ :=
              (if neg then -1 else 1) *
                ((ip : ℤ) * (10 : ℤ) ^ fds.length + (digitsToNat fds : ℤ))
            let scaled : ℚ := (mant : ℚ) / (10 : ℚ) ^ fds.length
            some ((if esign then scaled / (10 : ℚ) ^ e
                   else scaled * (10 : ℚ) ^ e), r)

/-- Parse the body of a JSON string after the opening quote, handling
escapes, combining surrogate pairs, and rejecting raw control
characters as the strict json decoder does. -/
def parseStringBody : List Char → Option (List Char × List Char)
  | [] => none
  | '\"' :: rest => some ([], rest)
  | '\\' :: esc =>
      match esc with
      | '\"' :: rest => (parseStringBody rest).map fun (s, r) => ('\"' :: s, r)
      | '\\' :: rest => (parseStringBody rest).map fun (s, r) => ('\\' :: s, r)
      | '/' :: rest => (parseStringBody rest).map fun (s, r) => ('/' :: s, r)
      | 'b' :: rest => (parseStringBody rest).map fun (s, r) => ('\x08' :: s, r)
      | 'f' :: rest => (parseStringBody rest).map fun (s, r) => ('\x0c' :: s, r)
      | 'n' :: rest => (parseStringBody rest).map fun (s, r) => ('\n' :: s, r)
      | 'r' :: rest => (parseStringBody rest).map fun (s, r) => ('\r' :: s, r)
      | 't' :: rest => (parseStringBody rest).map fun (s, r) => ('\t' :: s, r)
      | 'u' :: h1 :: h2 :: h3 :: h4 :: rest =>
          match hexVal h1, hexVal h2, hexVal h3, hexVal h4 with
          | some a, some b, some c, some d =>
            let cp := ((a * 16 + b) * 16 + c) * 16 + d
            if cp < 0xD800 || 0xE000 ≤ cp then
              (parseStringBody rest).map fun (s, r) => (Char.ofNat cp :: s, r)
            else if cp < 0xDC00 then
              match rest with
              | '\\' :: 'u' :: g1 :: g2 :: g3 :: g4 :: rest2 =>
                  match hexVal g1, hexVal g2, hexVal g3, hexVal g4 with
                  | some a2, some b2, some c2, some d2 =>
                    let lo := ((a2 * 16 + b2) * 16 + c2) * 16 + d2
                    if 0xDC00 ≤ lo && lo < 0xE000 then
                      let comb := 0x10000 + (cp - 0xD800) * 0x400 + (lo - 0xDC00)
                      (parseStringBody rest2).map fun (s, r) =>
                        (Char.ofNat comb :: s, r)
                    else none
                  | _, _, _, _ => none
              | _ => none
            else none
          | _, _, _, _ => none
      | _ => none
  | c :: rest =>
      if c.toNat < 0x20 then none
      else (parseStringBody rest).map fun (s, r) => (c :: s, r)

mutual

/-- Parse one JSON value (fuel-indexed recursive descent over the
grammar the json module accepts). -/
def parseValue : Nat → List Char → Option (Json × List Char)
  | 0, _ => none
  | _ + 1, 't' :: 'r' :: 'u' :: 'e' :: rest => some (Json.bool true, rest)
  | _ + 1, 'f' :: 'a' :: 'l' :: 's' :: 'e' :: rest => some (Json.bool false, rest)
  | _ + 1, 'n' :: 'u' :: 'l' :: 'l' :: rest => some (Json.null, rest)
  | _ + 1, '\"' :: rest =>
      (parseStringBody rest).map fun (s, r) => (Json.str (String.mk s), r)
  | fuel + 1, '[' :: rest =>
      let rest := skipWs rest
      match rest with
      | ']' :: r => some (Json.arr [], r)
      | _ =>
        match parseElems fuel rest with
        | some (es, r) => some (Json.arr es, r)
        | none => none
  | fuel + 1, '\x7b' :: rest =>
      let rest := skipWs rest
      match rest with
      | '\x7d' :: r => some (Json.obj [], r)
      | _ =>
        match parseMembers fuel rest with
        | some (fs, r) => some (Json.obj fs, r)
        | none => none
  | _ + 1, cs =>
      match parseNumber cs with
      | some (q, r) => some (Json.num q, r)
      | none => none

/-- Parse the comma-separated elements of a nonempty JSON array up to
and including the closing bracket. -/
def parseElems : Nat → List Char → Option (List Json × List Char)
  | 0, _ => none
  | fuel + 1, cs =>
      match parseValue fuel (skipWs cs) with
      | none => none
      | some (j, rest) =>
        match skipWs rest with
        | ',' :: r =>
            match parseElems fuel r with
            | some (es, r2) => some (j :: es, r2)
            | none => none
        | ']' :: r => some ([j], r)
        | _ => none

/-- Parse the comma-separated members of a nonempty JSON object up to
and including the closing brace. -/
def parseMembers : Nat → List Char → Option (List (String × Json) × List Char)
  | 0, _ => none
  | fuel + 1, cs =>
      match skipWs cs with
      | '\"' :: rest =>
        match parseStringBody rest with
        | none => none
        | some (key, rest2) =>
          match skipWs rest2 with
          | ':' :: rest3 =>
            match parseValue fuel (skipWs rest3) with
            | none => none
            | some (v, rest4) =>
              match skipWs rest4 with
              | ',' :: r =>
                  match parseMembers fuel r with
                  | some (fs, r2) => some ((String.mk key, v) :: fs, r2)
                  | none => none
              | '\x7d' :: r => some ([(String.mk key, v)], r)
              | _ => none
          | _ => none
      | _ => none

end

/-- json.loads: parse a complete JSON document, rejecting trailing data
(None models a raised JSONDecodeError). -/
def jsonLoads (s : String) : Option Json :=
  let cs := skipWs s.data
  match parseValue (cs.length + 1) cs with
  | some (j, rest) => if skipWs rest = [] then some j else none
  | none => none

/-- Lines 63-67 of mqtt_client.py: try json.loads(payload), and on
JSONDecodeError keep the raw text as the value. -/
def decodePayload (payload : String) : Json :=
  match jsonLoads payload with
  | some j => j
  | none => Json.str payload

/-- Strict UTF-8 decoding of a byte sequence, as bytes.decode("utf-8")
performs it: continuation bytes checked, overlong encodings, surrogates
and values above 0x10FFFF rejected (None models UnicodeDecodeError). -/
def utf8Decode : List Nat → Option (List Char)
  | [] => some []
  | b :: rest =>
    if b < 0x80 then
      (utf8Decode rest).map fun cs => Char.ofNat b :: cs
    else if b < 0xC2 then none
    else if b < 0xE0 then
      match rest with
      | b2 :: rest2 =>
          if 0x80 ≤ b2 && b2 < 0xC0 then
            (utf8Decode rest2).map fun cs =>
              Char.ofNat ((b - 0xC0) * 0x40 + (b2 - 0x80)) :: cs
          else none
      | [] => none
    else if b < 0xF0 then
      match rest with
      | b2 :: b3 :: rest3 =>
          if (0x80 ≤ b2 && b2 < 0xC0) && (0x80 ≤ b3 && b3 < 0xC0)
              && !(b = 0xE0 && b2 < 0xA0) && !(b = 0xED && 0xA0 ≤ b2) then
            (utf8Decode rest3).map fun cs =>
              Char.ofNat ((b - 0xE0) * 0x1000 + (b2 - 0x80) * 0x40 + (b3 - 0x80)) :: cs
          else none
      | _ => none
    else if b < 0xF5 then
      match rest with
      | b2 :: b3 :: b4 :: rest4 =>
          if (0x80 ≤ b2 && b2 < 0xC0) && (0x80 ≤ b3 && b3 < 0xC0)
              && (0x80 ≤ b4 && b4 < 0xC0)
              && !(b = 0xF0 && b2 < 0x90) && !(b = 0xF4 && 0x90 ≤ b2) then
            (utf8Decode rest4).map fun cs =>
              Char.ofNat ((b - 0xF0) * 0x40000 + (b2 - 0x80) * 0x1000
                + (b3 - 0x80) * 0x40 + (b4 - 0x80)) :: cs
          else none
      | _ => none
    else none

/-- Python exception classes relevant to the ingestion path. TypeError is
raised by ordering comparisons between non-numbers and ints; ValueError
and OSError are the classes datetime.fromtimestamp raises for
out-of-range inputs and that line 104 of mqtt_client.py catches. -/
inductive PyErr where
  | typeError
  | valueError
  | osError

/-- The Python comparison x > bound for a JSON-decoded value x and an int
bound: numbers (and bools, which are numeric in Python) compare; any
other operand raises TypeError. -/
def pyGT (v : Json) (bound : ℚ) : Except PyErr Bool :=
  match v with
  | Json.num q => Except.ok (bound < q)
  | Json.bool b => Except.ok (bound < (if b then 1 else 0))
  | _ => Except.error PyErr.typeError

/-- The numeric value of a JSON value known to be a number or bool. -/
def jsonNumVal (v : Json) : ℚ :=
  match v with
  | Json.num q => q
  | Json.bool b => if b then 1 else 0
  | _ => 0

/-- datetime.fromtimestamp(secs, tz=timezone.utc).isoformat(), modelled
on the instant it denotes: defined for instants datetime can represent
(years 1 to 9999), raising ValueError outside that range. -/
def fromtimestamp (secs : ℚ) : Except PyErr ℚ :=
  if -62135596800 ≤ secs ∧ secs < 253402300800 then Except.ok secs
  else Except.error PyErr.valueError

/-- Lines 91-105 of mqtt_client.py: derive the effective timestamp of a
message from its decoded payload and the receipt time. The inner
try/except catches only ValueError and OSError, so a TypeError from the
comparison on line 99 escapes (and is caught by the outer handler of
on_message, aborting the rest of the callback). -/
def effectiveTimestamp (payload_json : Json) (now : ℚ) : Except PyErr ℚ :=
  match payload_json with
  | Json.obj fields =>
    match dictGet fields "timestamp" with
    | some ts_value =>
      let attempt : Except PyErr ℚ := do
        let gtMs ← pyGT ts_value 1000000000000
        if gtMs then
          fromtimestamp (jsonNumVal ts_value / 1000)
        else do
          let gt0 ← pyGT ts_value 0
          if gt0 then pure now else pure now
      match attempt with
      | Except.ok t => Except.ok t
      | Except.error PyErr.typeError => Except.error PyErr.typeError
      | Except.error _ => Except.ok now
    | none => Except.ok now
  | _ => Except.ok now

/-- One stored message (the message_data dict built on lines 75-81). -/
structure RawMessage where
  topic : String
  payload : Json
  timestamp : ℚ
  device : String
  type : String

/-- A value of the per-device state dict: regular kinds map to a
two-field dict of payload and timestamp, while the last_seen key maps to
a bare timestamp string. -/
inductive StateVal where
  | entry (payload : Json) (timestamp : ℚ)
  | ts (t : ℚ)

/-- The mutable fields of MQTTClient relevant to ingestion and queries
(lines 18-23 of mqtt_client.py). -/
structure MQTTClient where
  messages : List RawMessage
  max_messages : Nat
  device_states : List (String × List (String × StateVal))

/-- The client right after MQTTClient.__init__: empty history, capacity
100, no device states. -/
def initClient : MQTTClient :=
  { messages := [], max_messages := 100, device_states := [] }

/-- Events emitted to web clients from the ingestion callback. -/
inductive Event where
  | mqtt_message (m : RawMessage)
  | device_update (device : String) (state : List (String × StateVal))

/-- Lines 69-81 of mqtt_client.py: split the topic, default missing
segments to unknown, and build the stored message record with the
receipt timestamp. -/
def message_data (topic payload : String) (now : ℚ) : RawMessage :=
  let payload_json := decodePayload payload
  let topic_parts := pySplit topic
  { topic := topic
    payload := payload_json
    timestamp := now
    device := (topic_parts.get? 1).getD "unknown"
    type := (topic_parts.get? 2).getD "unknown" }

/-- Lines 83-85 of mqtt_client.py: append to the history and pop the
front element once the length exceeds max_messages. -/
def historyPush (max_messages : Nat) (msgs : List RawMessage)
    (m : RawMessage) : List RawMessage :=
  let msgs := msgs ++ [m]
  if max_messages < msgs.length then msgs.drop 1 else msgs

/-- MQTTClient.on_message (lines 55-140 of mqtt_client.py), for a
message whose payload bytes decoded as UTF-8. Everything runs under the
outer try/except Exception, so when the timestamp derivation raises the
mutations already performed (history append, device key creation) are
kept, the state update and the socket emits are skipped, and the
callback still returns normally. -/
def on_message (st : MQTTClient) (topic payload : String) (now : ℚ) :
    MQTTClient × List Event :=
  let payload_json := decodePayload payload
  let m := message_data topic payload now
  let messages := historyPush st.max_messages st.messages m
  let device_states :=
    if dictHas st.device_states m.device then st.device_states
    else dictSet st.device_states m.device []
  match effectiveTimestamp payload_json now with
  | Except.error _ =>
      ({ st with messages := messages, device_states := device_states }, [])
  | Except.ok device_timestamp =>
      let dstate := (dictGet device_states m.device).getD []
      let dstate := dictSet dstate m.type (StateVal.entry payload_json device_timestamp)
      let dstate := dictSet dstate "last_seen" (StateVal.ts device_timestamp)
      let device_states := dictSet device_states m.device dstate
      ({ st with messages := messages, device_states := device_states },
        [Event.mqtt_message m, Event.device_update m.device dstate])

/-- The paho callback boundary: msg.payload is bytes and is decoded with
the strict utf-8 codec inside the outer try block (line 60), so a
UnicodeDecodeError is caught by the outer handler and the message leaves
no trace at all. -/
def on_message_bytes (st : MQTTClient) (topic : String)
    (payloadBytes : List Nat) (now : ℚ) : MQTTClient × List Event :=
  match utf8Decode payloadBytes with
  | some cs => on_message st topic (String.mk cs) now
  | none => (st, [])

/-- Drain a sequence of inbound messages through the callback, as the
paho network loop does, ignoring the emitted events. -/
def ingestAll (st : MQTTClient) (inputs : List (String × String × ℚ)) :
    MQTTClient :=
  inputs.foldl (fun s i => (on_message s i.1 i.2.1 i.2.2).1) st

/-- MQTTClient.get_device_states (lines 174-176). -/
def get_device_states (st : MQTTClient) :
    List (String × List (String × StateVal)) :=
  st.device_states

/-- MQTTClient.get_recent_messages (lines 170-172). -/
def get_recent_messages (st : MQTTClient) : List RawMessage :=
  st.messages

/-- config.py line 22: the fixed base topic. -/
def MQTT_BASE_TOPIC : String := "esp-sensor-hub"

/-- config.py line 23: the command topic template, an f-string leaving a
single named placeholder for the device. -/
def MQTT_COMMAND_TOPIC : String := MQTT_BASE_TOPIC ++ "/\x7bdevice\x7d/command"

/-- Python str.format with a single device keyword: substitute every
occurrence of the placeholder in the template. -/
def substDevice : List Char → List Char → List Char
  | [], _ => []
  | '\x7b' :: 'd' :: 'e' :: 'v' :: 'i' :: 'c' :: 'e' :: '\x7d' :: rest, d =>
      d ++ substDevice rest d
  | c :: rest, d => c :: substDevice rest d

/-- template.format(device=d) as a String operation. -/
def pyFormatDevice (template d : String) : String :=
  String.mk (substDevice template.data d.data)

/-- MQTTClient.publish_command (lines 158-168 of mqtt_client.py): render
the topic from the fixed template and publish the raw command string.
rc_success stands for whether the underlying paho publish reports
MQTT_ERR_SUCCESS; the function returns that verdict and the single
publish call it makes is recorded as a topic/payload pair. -/
def publish_command (rc_success : Bool) (device command : String) :
    Bool × List (String × String) :=
  let topic := pyFormatDevice MQTT_COMMAND_TOPIC device
  (rc_success, [(topic, command)])

/-- Python falsiness of an optional string as tested by line 286 of
app.py: absent keys and empty strings are falsy. -/
def pyFalsy (v : Option String) : Bool :=
  match v with
  | none => true
  | some s => s = ""

/-- An HTTP response: the status code and the JSON body produced by
jsonify. -/
structure HttpResp where
  status : Nat
  body : List (String × Json)

/-- The /api/command endpoint, app.py lines 279-293: validate that both
fields are present and nonempty, then delegate to publish_command when
an MQTT client object exists (hasClient mirrors the mqtt_client global
being non-None; rc_success the paho publish verdict). Returns the
response together with the list of publish calls performed. -/
def send_command (hasClient : Bool) (rc_success : Bool)
    (device command : Option String) : HttpResp × List (String × String) :=
  if pyFalsy device || pyFalsy command then
    ({ status := 400,
       body := [("success", Json.bool false),
                ("error", Json.str "Device and command required")] }, [])
  else if hasClient then
    let (success, calls) :=
      publish_command rc_success (device.getD "") (command.getD "")
    ({ status := 200, body := [("success", Json.bool success)] }, calls)
  else
    ({ status := 500,
       body := [("success", Json.bool false),
                ("error", Json.str "MQTT client not connected")] }, [])

/-- One parsed row of the device inventory, as load_device_inventory
builds it (app.py lines 54-62). -/
structure RosterEntry where
  name : String
  chip_id : String
  platform : String
  display : String
  ip : String
  status : String
  last_update : String

/-- One element of the /api/devices response: the inventory fields (the
last_update key is only present on inventory-backed entries) plus the
attached MQTT state, the matched MQTT name and the online flag. -/
structure EnrichedDevice where
  name : String
  chip_id : String
  platform : String
  display : String
  ip : String
  status : String
  last_update : Option String
  mqtt_state : List (String × StateVal)
  mqtt_name : String
  online : Bool

/-- App.py lines 92-112, one iteration of the inventory loop: pick the
MQTT name (exact key if present, else the space-to-hyphen variant), and
when it resolves to a live state, emit the enriched entry and record the
claimed MQTT name. -/
def enrichStep (device_states : List (String × List (String × StateVal)))
    (acc : List EnrichedDevice × List String) (device : RosterEntry) :
    List EnrichedDevice × List String :=
  let device_name := device.name
  let mqtt_name :=
    if dictHas device_states device_name then device_name
    else pyReplaceChar ' ' '-' device_name
  if dictHas device_states mqtt_name then
    (acc.1 ++ [{ name := device.name, chip_id := device.chip_id,
                 platform := device.platform, display := device.display,
                 ip := device.ip, status := device.status,
                 last_update := some device.last_update,
                 mqtt_state := (dictGet device_states mqtt_name).getD [],
                 mqtt_name := mqtt_name, online := true }],
     acc.2 ++ [mqtt_name])
  else if dictHas device_states device_name then
    (acc.1 ++ [{ name := device.name, chip_id := device.chip_id,
                 platform := device.platform, display := device.display,
                 ip := device.ip, status := device.status,
                 last_update := some device.last_update,
                 mqtt_state := (dictGet device_states device_name).getD [],
                 mqtt_name := device_name, online := true }],
     acc.2 ++ [device_name])
  else acc

/-- App.py lines 115-128, one iteration of the synthesis loop: a live
MQTT identifier claimed by no inventory entry becomes a synthesized
entry with unknown inventory fields, the hyphens-to-spaces display name
and online set. -/
def synthStep (matched : List String) (acc : List EnrichedDevice)
    (p : String × List (String × StateVal)) : List EnrichedDevice :=
  if p.1 ∈ matched then acc
  else acc ++ [{ name := pyReplaceChar '-' ' ' p.1, chip_id := "Unknown",
                 platform := "Unknown", display := "Unknown",
                 ip := "Unknown", status := "✅ Active",
                 last_update := none, mqtt_state := p.2,
                 mqtt_name := p.1, online := true }]

/-- App.py lines 87-128: the full reconciliation before sorting. -/
def enrichedDevices (devices : List RosterEntry)
    (device_states : List (String × List (String × StateVal))) :
    List EnrichedDevice :=
  let (enriched, matched) := devices.foldl (enrichStep device_states) ([], [])
  device_states.foldl (synthStep matched) enriched

/-- Lexicographic Bool comparison used as the first component of the
Python sort key (False sorts before True). -/
def boolLe (a b : Bool) : Bool := !a || b

/-- Lexicographic code-point comparison of strings, as Python compares
str values. -/
def strLe : List Char → List Char → Bool
  | [], _ => true
  | _ :: _, [] => false
  | a :: as, b :: bs =>
      if a.toNat < b.toNat then true
      else if b.toNat < a.toNat then false
      else strLe as bs

/-- App.py line 131: the sort key (not online, name), compared
lexicographically as Python compares tuples. -/
def keyLe (a b : EnrichedDevice) : Bool :=
  if a.online = b.online then strLe a.name.data b.name.data
  else boolLe (!a.online) (!b.online)

/-- The /api/devices endpoint body (app.py lines 81-133): reconcile and
then sort with the stable Python sort by the (not online, name) key. -/
def get_devices (devices : List RosterEntry)
    (device_states : List (String × List (String × StateVal))) :
    List EnrichedDevice :=
  (enrichedDevices devices device_states).mergeSort keyLe

/-! Helper lemmas about the Python dict model. -/

theorem dictGet_dictSet_self {α : Type} (d : List (String × α)) (k : String)
    (v : α) : dictGet (dictSet d k v) k = some v := by
  induction d with
  | nil => simp [dictSet, dictGet]
  | cons p rest ih =>
      obtain ⟨k0, w⟩ := p
      by_cases h : k0 = k
      · simp [dictSet, dictGet, h]
      · simp [dictSet, dictGet, h, ih]

theorem dictGet_dictSet_ne {α : Type} (d : List (String × α)) {k k' : String}
    (v : α) (h : k' ≠ k) : dictGet (dictSet d k v) k' = dictGet d k' := by
  induction d with
  | nil => simp [dictSet, dictGet, Ne.symm h]
  | cons p rest ih =>
      obtain ⟨k0, w⟩ := p
      by_cases hk : k0 = k
      · subst hk
        simp [dictSet, dictGet, Ne.symm h]
      · simp only [dictSet, if_neg hk]
        by_cases hk' : k0 = k'
        · simp [dictGet, hk']
        · simp [dictGet, hk', ih]

/-- Whether a JSON value is a structured object. -/
def Json.isObj : Json → Bool
  | Json.obj _ => true
  | _ => false

/-- C5 counterexample: the payload text 42 is valid JSON, so json.loads
succeeds and the decoder returns the number 42 — which is neither a
structured JSON object nor the original raw text kept as an opaque
string. The decoder is therefore not two-valued in the claimed sense. -/
theorem decode_not_two_valued_c5 :
    decodePayload "42" = Json.num 42 ∧
    (decodePayload "42").isObj = false ∧
    decodePayload "42" ≠ Json.str "42" :=
  ⟨rfl, rfl, fun h => Json.noConfusion (show Json.num 42 = Json.str "42" from h)⟩

/-- C5 as amended: payload decoding is total and never raises — it
returns the parsed JSON value (of any JSON type) when the payload parses,
and otherwise falls back to the original raw text as an opaque string;
malformed JSON only ever produces the opaque-string fallback. -/
theorem decode_payload_total_c5 :
    (∀ s : String,
      (∃ j, jsonLoads s = some j ∧ decodePayload s = j) ∨
      (jsonLoads s = none ∧ decodePayload s = Json.str s)) ∧
    decodePayload "\x7b\"v\": 7\x7d" = Json.obj [("v", Json.num 7)] ∧
    decodePayload "not json" = Json.str "not json" := by
  refine ⟨?_, rfl, rfl⟩
  intro s
  cases h : jsonLoads s with
  | none =>
      right
      exact ⟨rfl, by unfold decodePayload; rw [h]⟩
  | some j =>
      left
      exact ⟨j, rfl, by unfold decodePayload; rw [h]⟩

/-- The command-topic template renders by plain substitution of the
device name into the fixed template. -/
theorem pyFormatDevice_command_topic (device : String) :
    pyFormatDevice MQTT_COMMAND_TOPIC device
      = MQTT_BASE_TOPIC ++ "/" ++ device ++ "/command" :=
  congrArg String.mk rfl

/-- C9: for every nonempty device and command, the single publish call
goes to base-topic/device/command and carries exactly the raw command
string as payload (no JSON wrapping), and the paho verdict is returned
unchanged. -/
theorem publish_command_topic_c9 (rc : Bool) (device command : String)
    (hd : device ≠ "") (hc : command ≠ "") :
    publish_command rc device command
      = (rc, [(MQTT_BASE_TOPIC ++ "/" ++ device ++ "/command", command)]) := by
  unfold publish_command
  rw [pyFormatDevice_command_topic]

theorem publish_command_topic_c9_witness :
    publish_command true "dev1" "restart"
      = (true, [(MQTT_BASE_TOPIC ++ "/" ++ "dev1" ++ "/command", "restart")]) :=
  publish_command_topic_c9 true "dev1" "restart" (by decide) (by decide)

/-- C6 counterexample: on a successful send, the HTTP response body of
/api/command is only the success flag — it does not echo the device and
command back to the caller as the claim states. -/
theorem send_command_no_echo_c6 :
    send_command true true (some "dev1") (some "restart")
      = ({ status := 200, body := [("success", Json.bool true)] },
         [("esp-sensor-hub/dev1/command", "restart")]) ∧
    dictGet (send_command true true (some "dev1") (some "restart")).1.body
      "device" = none ∧
    dictGet (send_command true true (some "dev1") (some "restart")).1.body
      "command" = none :=
  ⟨rfl, rfl, rfl⟩

/-- C6 as amended: an empty or missing device or command fails with the
invalid-request response and performs no publish call; when no MQTT
client object exists the endpoint fails with the client-not-connected
response and performs no publish call; otherwise it renders the topic
from the fixed template, delegates to publish and returns only the
success flag of the publish (without echoing device and command in the
HTTP response). -/
theorem send_command_spec_c6 :
    (∀ (hasClient rc : Bool) (device command : Option String),
      (pyFalsy device || pyFalsy command) = true →
      send_command hasClient rc device command
        = ({ status := 400,
             body := [("success", Json.bool false),
                      ("error", Json.str "Device and command required")] }, [])) ∧
    (∀ (rc : Bool) (device command : Option String),
      pyFalsy device = false → pyFalsy command = false →
      send_command false rc device command
        = ({ status := 500,
             body := [("success", Json.bool false),
                      ("error", Json.str "MQTT client not connected")] }, [])) ∧
    (∀ (rc : Bool) (d c : String), d ≠ "" → c ≠ "" →
      send_command true rc (some d) (some c)
        = ({ status := 200, body := [("success", Json.bool rc)] },
           [(MQTT_BASE_TOPIC ++ "/" ++ d ++ "/command", c)])) := by
  refine ⟨?_, ?_, ?_⟩
  · intro hasClient rc device command h
    simp [send_command, h]
  · intro rc device command h1 h2
    simp [send_command, h1, h2]
  · intro rc d c hd hc
    simp [send_command, pyFalsy, hd, hc, publish_command,
      pyFormatDevice_command_topic]

theorem send_command_spec_c6_witness :
    send_command true false (some "sensor2") (some "reboot")
      = ({ status := 200, body := [("success", Json.bool false)] },
         [(MQTT_BASE_TOPIC ++ "/" ++ "sensor2" ++ "/command", "reboot")]) :=
  send_command_spec_c6.2.2 false "sensor2" "reboot" (by decide) (by decide)

/-- Reading one device out of get_device_states, as the query paths do
(missing devices read as an empty dict). -/
def deviceStateOf (st : MQTTClient) (device : String) :
    List (String × StateVal) :=
  (dictGet (get_device_states st) device).getD []

/-- C1: the three-way split itself is implemented for numeric timestamp
values (first three conjuncts: milliseconds above 1e12 are converted,
positive uptime values and nonpositive values fall back to receipt
time), but a non-numeric timestamp value raises TypeError on the line-99
comparison, which the inner except (ValueError, OSError) does not catch:
the outer handler then aborts the callback, so the message is NOT
processed with receipt time as its effective timestamp — the per-kind
state entry, last_seen and the socket emits are all skipped (final
conjunct: only the history append and the empty device dict remain). -/
theorem effective_timestamp_code_bug_c1 :
    effectiveTimestamp (Json.obj [("timestamp", Json.num 1700000000000)]) 1111
      = Except.ok 1700000000 ∧
    effectiveTimestamp (Json.obj [("timestamp", Json.num 3600)]) 1111
      = Except.ok 1111 ∧
    effectiveTimestamp (Json.obj [("timestamp", Json.num (-5))]) 1111
      = Except.ok 1111 ∧
    effectiveTimestamp (Json.obj [("timestamp", Json.str "abc")]) 1111
      = Except.error PyErr.typeError ∧
    on_message initClient "esp-sensor-hub/dev1/status"
        "\x7b\"timestamp\": \"abc\"\x7d" 1111
      = ({ messages := [{ topic := "esp-sensor-hub/dev1/status",
                          payload := Json.obj [("timestamp", Json.str "abc")],
                          timestamp := 1111, device := "dev1",
                          type := "status" }],
           max_messages := 100, device_states := [("dev1", [])] }, []) := by
  refine ⟨?_, ?_, ?_, rfl, rfl⟩
  · simp only [effectiveTimestamp, dictGet, pyGT, jsonNumVal, fromtimestamp,
      bind, Except.bind, pure, Except.pure]
    norm_num
  · simp only [effectiveTimestamp, dictGet, pyGT, jsonNumVal, fromtimestamp,
      bind, Except.bind, pure, Except.pure]
    norm_num
  · simp only [effectiveTimestamp, dictGet, pyGT, jsonNumVal, fromtimestamp,
      bind, Except.bind, pure, Except.pure]
    norm_num

/-- C4: last_seen is NOT set for every inbound message. A message whose
payload carries a non-numeric timestamp raises TypeError before line
114, so for a previously unseen device the stored state exists but holds
no last_seen at all (first two conjuncts), while an ordinary message
does set last_seen to its effective timestamp (third conjunct). -/
theorem last_seen_missing_code_bug_c4 :
    (on_message initClient "esp-sensor-hub/dev9/temperature"
        "\x7b\"timestamp\": [1]\x7d" 2222).1.device_states
      = [("dev9", [])] ∧
    dictGet (deviceStateOf
        (on_message initClient "esp-sensor-hub/dev9/temperature"
          "\x7b\"timestamp\": [1]\x7d" 2222).1 "dev9") "last_seen" = none ∧
    dictGet (deviceStateOf
        (on_message initClient "esp-sensor-hub/dev9/temperature"
          "\x7b\"v\": 1\x7d" 2222).1 "dev9") "last_seen"
      = some (StateVal.ts 2222) :=
  ⟨rfl, rfl, rfl⟩

/-- C10: the per-kind map and the last_seen marker share one namespace.
For any ingest whose timestamp derivation succeeds, the device state
maps last_seen to the bare timestamp string; when the kind segment is
itself the literal last_seen, the payload/timestamp entry written first
is unconditionally overwritten by that bare timestamp (so the payload is
absent and the entry is indistinguishable from the marker), while any
other kind keeps its payload/timestamp entry alongside the marker. -/
theorem last_seen_namespace_c10 (st : MQTTClient) (topic payload : String)
    (now t : ℚ)
    (h : effectiveTimestamp (decodePayload payload) now = Except.ok t) :
    dictGet (deviceStateOf (on_message st topic payload now).1
        (message_data topic payload now).device) "last_seen"
      = some (StateVal.ts t) ∧
    ((message_data topic payload now).type = "last_seen" →
      dictGet (deviceStateOf (on_message st topic payload now).1
          (message_data topic payload now).device)
        (message_data topic payload now).type = some (StateVal.ts t)) ∧
    ((message_data topic payload now).type ≠ "last_seen" →
      dictGet (deviceStateOf (on_message st topic payload now).1
          (message_data topic payload now).device)
        (message_data topic payload now).type
        = some (StateVal.entry (decodePayload payload) t)) := by
  simp only [on_message, h, deviceStateOf, get_device_states]
  rw [dictGet_dictSet_self]
  simp only [Option.getD_some]
  refine ⟨dictGet_dictSet_self _ _ _, ?_, ?_⟩
  · intro htype
    rw [htype]
    exact dictGet_dictSet_self _ _ _
  · intro htype
    rw [dictGet_dictSet_ne _ _ htype]
    exact dictGet_dictSet_self _ _ _

theorem last_seen_namespace_c10_witness :
    dictGet (deviceStateOf
        (on_message initClient "esp-sensor-hub/dev1/last_seen"
          "\x7b\"x\": 1\x7d" 7).1
        (message_data "esp-sensor-hub/dev1/last_seen" "\x7b\"x\": 1\x7d" 7).device)
      "last_seen" = some (StateVal.ts 7) :=
  (last_seen_namespace_c10 initClient "esp-sensor-hub/dev1/last_seen"
    "\x7b\"x\": 1\x7d" 7 7 rfl).1

/-- The stored record of one inbound message (topic, payload, receipt
time). -/
def rawOf (i : String × String × ℚ) : RawMessage :=
  message_data i.1 i.2.1 i.2.2

/-- The history update performed by on_message is historyPush, whichever
branch the timestamp derivation takes. -/
theorem on_message_fst_messages (st : MQTTClient) (topic payload : String)
    (now : ℚ) :
    ((on_message st topic payload now).1).messages
      = historyPush st.max_messages st.messages (message_data topic payload now) := by
  cases h : effectiveTimestamp (decodePayload payload) now with
  | ok t => simp [on_message, h]
  | error e => simp [on_message, h]

/-- on_message never changes the capacity field. -/
theorem on_message_fst_max (st : MQTTClient) (topic payload : String)
    (now : ℚ) :
    ((on_message st topic payload now).1).max_messages = st.max_messages := by
  cases h : effectiveTimestamp (decodePayload payload) now with
  | ok t => simp [on_message, h]
  | error e => simp [on_message, h]

/-- One push keeps the history under the capacity. -/
theorem historyPush_length_le (max : Nat) (M : List RawMessage)
    (m : RawMessage) (h : M.length ≤ max) :
    (historyPush max M m).length ≤ max := by
  simp only [historyPush]
  split
  · simp only [List.length_drop, List.length_append, List.length_singleton]
    omega
  · rename_i hlen
    simp only [List.length_append, List.length_singleton] at hlen ⊢
    omega

/-- Draining messages from a client with capacity 100 and at most 100
stored messages leaves exactly the last 100 of stored-plus-ingested. -/
theorem ingestAll_messages_eq (L : List (String × String × ℚ)) :
    ∀ st : MQTTClient, st.max_messages = 100 → st.messages.length ≤ 100 →
    (ingestAll st L).messages
      = (st.messages ++ L.map rawOf).drop ((st.messages.length + L.length) - 100) := by
  induction L with
  | nil =>
      intro st _ h2
      simp [ingestAll, Nat.sub_eq_zero_of_le h2]
  | cons i L ih =>
      intro st h1 h2
      have hstep : ingestAll st (i :: L) = ingestAll (on_message st i.1 i.2.1 i.2.2).1 L := by
        simp [ingestAll]
      have hmsg : ((on_message st i.1 i.2.1 i.2.2).1).messages
          = historyPush 100 st.messages (rawOf i) := by
        rw [on_message_fst_messages, h1]; rfl
      have hmax : ((on_message st i.1 i.2.1 i.2.2).1).max_messages = 100 := by
        rw [on_message_fst_max, h1]
      rcases Nat.lt_or_ge st.messages.length 100 with hlt | hge
      · have hm2 : ((on_message st i.1 i.2.1 i.2.2).1).messages
            = st.messages ++ [rawOf i] := by
          rw [hmsg]
          simp only [historyPush, List.length_append, List.length_singleton]
          split
          · omega
          · rfl
        have hlen2 : ((on_message st i.1 i.2.1 i.2.2).1).messages.length ≤ 100 := by
          rw [hm2]
          simp only [List.length_append, List.length_singleton]
          omega
        rw [hstep, ih _ hmax hlen2, hm2]
        have harith : (st.messages ++ [rawOf i]).length + L.length - 100
            = st.messages.length + (i :: L).length - 100 := by
          simp only [List.length_append, List.length_singleton, List.length_cons,
            List.length_nil]
          omega
        rw [harith]
        simp only [List.append_assoc, List.singleton_append, List.map_cons]
      · have heq : st.messages.length = 100 := Nat.le_antisymm h2 hge
        have hm2 : ((on_message st i.1 i.2.1 i.2.2).1).messages
            = (st.messages ++ [rawOf i]).drop 1 := by
          rw [hmsg]
          simp only [historyPush, List.length_append, List.length_singleton]
          split
          · rfl
          · omega
        have hlen2 : ((on_message st i.1 i.2.1 i.2.2).1).messages.length ≤ 100 := by
          rw [hm2]
          simp only [List.length_drop, List.length_append, List.length_singleton]
          omega
        rw [hstep, ih _ hmax hlen2, hm2]
        rw [show (st.messages ++ [rawOf i]).drop 1 ++ L.map rawOf
            = ((st.messages ++ [rawOf i]) ++ L.map rawOf).drop 1 from
          (List.drop_append_of_le_length (by simp)).symm]
        rw [List.drop_drop]
        have harith : 1 + (((st.messages ++ [rawOf i]).drop 1).length + L.length - 100)
            = st.messages.length + (i :: L).length - 100 := by
          simp only [List.length_drop, List.length_append, List.length_singleton,
            List.length_cons, List.length_nil]
          omega
        rw [harith]
        simp only [List.append_assoc, List.singleton_append, List.map_cons]

/-- C2: the history is a strict FIFO ring of capacity 100. One ingest
never grows the history past the capacity (first conjunct); from a fresh
client, any ingest sequence leaves exactly the last 100 message records
in ingestion order (second conjunct); and after 101 ingests the first
message is gone while the newest and all 100 later ones remain,
oldest-first (third conjunct). -/
theorem history_ring_fifo_c2 :
    (∀ (st : MQTTClient) (topic payload : String) (now : ℚ),
      st.messages.length ≤ st.max_messages →
      ((on_message st topic payload now).1).messages.length ≤ st.max_messages) ∧
    (∀ L : List (String × String × ℚ),
      (ingestAll initClient L).messages = (L.map rawOf).drop (L.length - 100)) ∧
    (∀ (i₀ : String × String × ℚ) (L : List (String × String × ℚ)),
      L.length = 100 → rawOf i₀ ∉ L.map rawOf →
      (ingestAll initClient (i₀ :: L)).messages = L.map rawOf ∧
      rawOf i₀ ∉ (ingestAll initClient (i₀ :: L)).messages ∧
      ∀ h : L ≠ [], rawOf (L.getLast h) ∈ (ingestAll initClient (i₀ :: L)).messages) := by
  have key : ∀ L : List (String × String × ℚ),
      (ingestAll initClient L).messages = (L.map rawOf).drop (L.length - 100) := by
    intro L
    have := ingestAll_messages_eq L initClient rfl (by simp [initClient])
    simpa [initClient] using this
  refine ⟨?_, key, ?_⟩
  · intro st topic payload now h
    rw [on_message_fst_messages]
    exact historyPush_length_le _ _ _ h
  · intro i₀ L hlen hnot
    have hmain : (ingestAll initClient (i₀ :: L)).messages = L.map rawOf := by
      rw [key]
      simp [hlen]
    refine ⟨hmain, ?_, ?_⟩
    · rw [hmain]; exact hnot
    · intro h
      rw [hmain]
      exact List.mem_map_of_mem rawOf (List.getLast_mem h)

/-- Concrete 101-message run used to witness the FIFO claim. -/
def fifoInputs : List (String × String × ℚ) :=
  (List.range 100).map fun (i : ℕ) => ("t", "x", (i : ℚ) + 1)

theorem history_ring_fifo_c2_witness :
    rawOf ("t", "x", 0) ∉ (ingestAll initClient (("t", "x", 0) :: fifoInputs)).messages := by
  have hlen : fifoInputs.length = 100 := by
    simp only [fifoInputs, List.length_map, List.length_range]
  have hnot : rawOf ("t", "x", 0) ∉ fifoInputs.map rawOf := by
    intro hmem
    rw [fifoInputs.eq_def, List.map_map, List.mem_map] at hmem
    obtain ⟨i, _, heq⟩ := hmem
    rw [Function.comp_apply] at heq
    have ht : ((i : ℚ) + 1) = 0 := congrArg RawMessage.timestamp heq
    have hnn : (0 : ℚ) ≤ (i : ℚ) := Nat.cast_nonneg i
    have h0 : (0 : ℚ) < (i : ℚ) + 1 := by linarith
    rw [ht] at h0
    exact lt_irrefl 0 h0
  exact (history_ring_fifo_c2.2.2 ("t", "x", 0) fifoInputs hlen hnot).2.1

/-- A freshly pushed message is still in the history afterwards, as long
as the capacity is at least one. -/
theorem self_mem_historyPush (max : Nat) (M : List RawMessage)
    (m : RawMessage) (h : 1 ≤ max) : m ∈ historyPush max M m := by
  simp only [historyPush]
  split
  · rename_i hlen
    simp only [List.length_append, List.length_singleton] at hlen
    have h1 : 1 ≤ M.length := by omega
    rw [List.drop_append_of_le_length h1]
    simp
  · simp

/-- C7 counterexample: a message whose payload bytes are not valid UTF-8
is dropped entirely — the decode on line 60 raises UnicodeDecodeError
inside the outer try, so nothing is stored and nothing is emitted, even
though the raw bytes were unparseable rather than the process failing. -/
theorem invalid_utf8_dropped_c7 :
    on_message_bytes initClient "esp-sensor-hub/dev1/status" [255] 5
      = (initClient, []) ∧
    (on_message_bytes initClient "esp-sensor-hub/dev1/status" [255] 5).1.messages
      = [] :=
  ⟨rfl, rfl⟩

/-- C7 as amended: for payloads that decode as text, an unparseable
(non-JSON) payload is never dropped — it is stored in the history and in
the per-device state with the raw text as an opaque payload and the
receipt time as effective timestamp (first conjunct); a payload whose
bytes are not valid UTF-8 is dropped by the outer exception handler with
no trace (second conjunct); and no ingestion failure propagates: the
callback is total and the loop keeps processing, so a message following
any other message — including one that raised — is still ingested (third
conjunct). -/
theorem ingest_resilient_c7 :
    (∀ (st : MQTTClient) (topic payload : String) (now : ℚ),
      jsonLoads payload = none → 1 ≤ st.max_messages →
      message_data topic payload now ∈ ((on_message st topic payload now).1).messages ∧
      (message_data topic payload now).payload = Json.str payload ∧
      dictGet (deviceStateOf (on_message st topic payload now).1
          (message_data topic payload now).device) "last_seen"
        = some (StateVal.ts now)) ∧
    (∀ (st : MQTTClient) (topic : String) (bytes : List Nat) (now : ℚ),
      utf8Decode bytes = none → on_message_bytes st topic bytes now = (st, [])) ∧
    (∀ (st : MQTTClient) (prev : String × String × ℚ)
        (topic payload : String) (now : ℚ),
      jsonLoads payload = none → 1 ≤ st.max_messages →
      message_data topic payload now
        ∈ (ingestAll st [prev, (topic, payload, now)]).messages) := by
  have main : ∀ (st : MQTTClient) (topic payload : String) (now : ℚ),
      jsonLoads payload = none → 1 ≤ st.max_messages →
      message_data topic payload now ∈ ((on_message st topic payload now).1).messages ∧
      (message_data topic payload now).payload = Json.str payload ∧
      dictGet (deviceStateOf (on_message st topic payload now).1
          (message_data topic payload now).device) "last_seen"
        = some (StateVal.ts now) := by
    intro st topic payload now hj hmax
    have hdec : decodePayload payload = Json.str payload := by
      unfold decodePayload; rw [hj]
    have heff : effectiveTimestamp (decodePayload payload) now = Except.ok now := by
      rw [hdec]; rfl
    refine ⟨?_, ?_, ?_⟩
    · rw [on_message_fst_messages]
      exact self_mem_historyPush _ _ _ hmax
    · simp [message_data, hdec]
    · simp only [on_message, heff, deviceStateOf, get_device_states]
      rw [dictGet_dictSet_self]
      simp only [Option.getD_some]
      exact dictGet_dictSet_self _ _ _
  refine ⟨main, ?_, ?_⟩
  · intro st topic bytes now hb
    simp [on_message_bytes, hb]
  · intro st prev topic payload now hj hmax
    have hstep : ingestAll st [prev, (topic, payload, now)]
        = (on_message (on_message st prev.1 prev.2.1 prev.2.2).1 topic payload now).1 := by
      simp [ingestAll]
    have hmax2 : 1 ≤ ((on_message st prev.1 prev.2.1 prev.2.2).1).max_messages := by
      rw [on_message_fst_max]; exact hmax
    rw [hstep]
    exact (main _ topic payload now hj hmax2).1

theorem ingest_resilient_c7_witness :
    message_data "esp-sensor-hub/dev2/status" "hello" 3
      ∈ ((on_message initClient "esp-sensor-hub/dev2/status" "hello" 3).1).messages :=
  (ingest_resilient_c7.1 initClient "esp-sensor-hub/dev2/status" "hello" 3
    rfl (by decide)).1

/-- Spec-side matching rule (4.4 step 1): exact identifier first, then
the identifier with spaces replaced by hyphens, first match wins. -/
def specFirstMatch (device_states : List (String × List (String × StateVal)))
    (name : String) : Option String :=
  if dictHas device_states name then some name
  else if dictHas device_states (pyReplaceChar ' ' '-' name) then
    some (pyReplaceChar ' ' '-' name)
  else none

/-- Spec-side matched output (4.4 step 2): roster fields, the live state
attached, online set. -/
def specMatchedDevice (device_states : List (String × List (String × StateVal)))
    (r : RosterEntry) (m : String) : EnrichedDevice :=
  { name := r.name, chip_id := r.chip_id, platform := r.platform,
    display := r.display, ip := r.ip, status := r.status,
    last_update := some r.last_update,
    mqtt_state := (dictGet device_states m).getD [],
    mqtt_name := m, online := true }

/-- Spec-side synthesized output (4.4 step 3): unknown roster fields,
humanized name, online set. -/
def specSynthDevice (p : String × List (String × StateVal)) : EnrichedDevice :=
  { name := pyReplaceChar '-' ' ' p.1, chip_id := "Unknown",
    platform := "Unknown", display := "Unknown", ip := "Unknown",
    status := "✅ Active", last_update := none, mqtt_state := p.2,
    mqtt_name := p.1, online := true }

/-- The live identifiers claimed by some roster entry. -/
def specClaimed (devices : List RosterEntry)
    (device_states : List (String × List (String × StateVal))) : List String :=
  devices.filterMap fun r => specFirstMatch device_states r.name

/-- Spec-side reconciliation: matched roster entries in roster order,
then synthesized entries for unclaimed live identifiers in store order. -/
def specReconcile (devices : List RosterEntry)
    (device_states : List (String × List (String × StateVal))) :
    List EnrichedDevice :=
  (devices.filterMap fun r =>
    (specFirstMatch device_states r.name).map (specMatchedDevice device_states r))
  ++ (device_states.filter fun p =>
      decide (p.1 ∉ specClaimed devices device_states)).map specSynthDevice

/-- One inventory-loop iteration agrees with the spec-side matching
rule. -/
theorem enrichStep_eq (device_states : List (String × List (String × StateVal)))
    (acc : List EnrichedDevice × List String) (r : RosterEntry) :
    enrichStep device_states acc r
      = match specFirstMatch device_states r.name with
        | some m => (acc.1 ++ [specMatchedDevice device_states r m], acc.2 ++ [m])
        | none => acc := by
  by_cases h1 : dictHas device_states r.name
  · simp [enrichStep, specFirstMatch, specMatchedDevice, h1]
  · by_cases h2 : dictHas device_states (pyReplaceChar ' ' '-' r.name)
    · simp [enrichStep, specFirstMatch, specMatchedDevice, h1, h2]
    · simp [enrichStep, specFirstMatch, h1, h2]

/-- The inventory loop is the filterMap of the matching rule, with the
claimed identifiers accumulated alongside. -/
theorem foldl_enrichStep (device_states : List (String × List (String × StateVal))) :
    ∀ (devices : List RosterEntry) (e : List EnrichedDevice) (m : List String),
    devices.foldl (enrichStep device_states) (e, m)
      = (e ++ devices.filterMap fun r =>
          (specFirstMatch device_states r.name).map (specMatchedDevice device_states r),
         m ++ specClaimed devices device_states) := by
  intro devices
  induction devices with
  | nil => intro e m; simp [specClaimed]
  | cons r rest ih =>
      intro e m
      rw [List.foldl_cons, enrichStep_eq]
      cases h : specFirstMatch device_states r.name with
      | none =>
          rw [ih]
          simp [specClaimed, List.filterMap_cons, h]
      | some mm =>
          rw [ih]
          simp [specClaimed, List.filterMap_cons, h]

/-- The synthesis loop appends a synthesized entry for every unclaimed
live identifier, in store order. -/
theorem foldl_synthStep (matched : List String) :
    ∀ (device_states : List (String × List (String × StateVal)))
      (e : List EnrichedDevice),
    device_states.foldl (synthStep matched) e
      = e ++ (device_states.filter fun p => decide (p.1 ∉ matched)).map specSynthDevice := by
  intro device_states
  induction device_states with
  | nil => intro e; simp
  | cons p rest ih =>
      intro e
      rw [List.foldl_cons]
      by_cases h : p.1 ∈ matched
      · rw [show synthStep matched e p = e by simp [synthStep, h]]
        rw [ih]
        simp [List.filter_cons, h]
      · rw [show synthStep matched e p = e ++ [specSynthDevice p] by
          simp [synthStep, specSynthDevice, h]]
        rw [ih]
        simp [List.filter_cons, h]

/-- C3: the reconciliation emits, in order, one entry per roster entry
that matches a live identifier (exact name first, hyphenated variant
second, first match wins) carrying the live state and online = true;
roster entries with no match are excluded entirely; and every live
identifier claimed by no roster entry is synthesized with unknown roster
fields, the hyphens-to-spaces display name and online = true. Every
emitted device is online. -/
theorem reconcile_c3 (devices : List RosterEntry)
    (device_states : List (String × List (String × StateVal))) :
    enrichedDevices devices device_states = specReconcile devices device_states ∧
    ∀ d ∈ enrichedDevices devices device_states, d.online = true := by
  have hmain : enrichedDevices devices device_states
      = specReconcile devices device_states := by
    unfold enrichedDevices
    rw [foldl_enrichStep]
    simp only [List.nil_append]
    rw [foldl_synthStep]
    rfl
  refine ⟨hmain, ?_⟩
  intro d hd
  rw [hmain] at hd
  unfold specReconcile at hd
  rcases List.mem_append.mp hd with h | h
  · obtain ⟨r, _, hr⟩ := List.mem_filterMap.mp h
    obtain ⟨m, _, hm⟩ := Option.map_eq_some'.mp hr
    rw [← hm]
    rfl
  · obtain ⟨p, _, hp⟩ := List.mem_map.mp h
    rw [← hp]
    rfl

/-- Code-point comparison of strings is total. -/
theorem strLe_total : ∀ a b : List Char, (strLe a b || strLe b a) = true
  | [], _ => by simp [strLe]
  | _ :: _, [] => by simp [strLe]
  | x :: xs, y :: ys => by
      simp only [strLe]
      by_cases hxy : x.toNat < y.toNat
      · simp [hxy]
      · by_cases hyx : y.toNat < x.toNat
        · simp [hxy, hyx]
        · simp only [if_neg hxy, if_neg hyx]
          exact strLe_total xs ys

/-- Code-point comparison of strings is transitive. -/
theorem strLe_trans : ∀ a b c : List Char,
    strLe a b = true → strLe b c = true → strLe a c = true
  | [], _, _, _, _ => by simp [strLe]
  | x :: xs, [], _, h1, _ => by simp [strLe] at h1
  | _ :: _, _ :: _, [], _, h2 => by simp [strLe] at h2
  | x :: xs, y :: ys, z :: zs, h1, h2 => by
      simp only [strLe] at h1 h2 ⊢
      by_cases hxy : x.toNat < y.toNat
      · by_cases hyz : y.toNat < z.toNat
        · simp [Nat.lt_trans hxy hyz]
        · by_cases hzy : z.toNat < y.toNat
          · rw [if_neg hyz, if_pos hzy] at h2
            exact absurd h2 (by simp)
          · have hyz' : y.toNat = z.toNat := by omega
            simp [show x.toNat < z.toNat from hyz' ▸ hxy]
      · by_cases hyx : y.toNat < x.toNat
        · rw [if_neg hxy, if_pos hyx] at h1
          exact absurd h1 (by simp)
        · rw [if_neg hxy, if_neg hyx] at h1
          by_cases hyz : y.toNat < z.toNat
          · have hxz : x.toNat < z.toNat := by omega
            simp [hxz]
          · by_cases hzy : z.toNat < y.toNat
            · rw [if_neg hyz, if_pos hzy] at h2
              exact absurd h2 (by simp)
            · rw [if_neg hyz, if_neg hzy] at h2
              have hxz : ¬ x.toNat < z.toNat := by omega
              have hzx : ¬ z.toNat < x.toNat := by omega
              rw [if_neg hxz, if_neg hzx]
              exact strLe_trans xs ys zs h1 h2

/-- The Python sort key comparison is total. -/
theorem keyLe_total (a b : EnrichedDevice) : (keyLe a b || keyLe b a) = true := by
  simp only [keyLe, boolLe]
  cases ha : a.online <;> cases hb : b.online <;> simp [strLe_total]

/-- The Python sort key comparison is transitive. -/
theorem keyLe_trans (a b c : EnrichedDevice) (h1 : keyLe a b = true)
    (h2 : keyLe b c = true) : keyLe a c = true := by
  simp only [keyLe, boolLe] at h1 h2 ⊢
  cases ha : a.online <;> cases hb : b.online <;> cases hc : c.online <;>
    rw [ha, hb] at h1 <;> rw [hb, hc] at h2 <;>
    simp_all <;> exact strLe_trans _ _ _ h1 h2

/-- C8: the reconciled device list is emitted sorted by the
(not online, display name) key — online entries before offline ones,
names compared lexicographically within each group (first conjunct); the
sort only reorders, the output being a permutation of the reconciliation
result (second conjunct); the sort is stable: any key-sorted sublist of
the reconciliation result survives as a sublist of the output (third
conjunct); and the whole computation is a pure function of the roster
and the state snapshot, so repeated calls return identical output
(fourth conjunct). -/
theorem devices_sorted_c8 :
    (∀ (devices : List RosterEntry)
        (device_states : List (String × List (String × StateVal))),
      (get_devices devices device_states).Pairwise fun a b => keyLe a b = true) ∧
    (∀ (devices : List RosterEntry)
        (device_states : List (String × List (String × StateVal))),
      (get_devices devices device_states).Perm (enrichedDevices devices device_states)) ∧
    (∀ (devices : List RosterEntry)
        (device_states : List (String × List (String × StateVal)))
        (c : List EnrichedDevice),
      (c.Pairwise fun a b => keyLe a b = true) →
      c.Sublist (enrichedDevices devices device_states) →
      c.Sublist (get_devices devices device_states)) ∧
    (∀ (devices : List RosterEntry)
        (device_states : List (String × List (String × StateVal))),
      get_devices devices device_states = get_devices devices device_states) := by
  refine ⟨?_, ?_, ?_, fun _ _ => rfl⟩
  · intro devices device_states
    exact List.sorted_mergeSort keyLe_trans (fun a b => keyLe_total a b) _
  · intro devices device_states
    exact List.mergeSort_perm _ _
  · intro devices device_states c hc hsub
    exact List.sublist_mergeSort keyLe_trans (fun a b => keyLe_total a b) hc hsub

theorem devices_sorted_c8_witness :
    ([] : List EnrichedDevice).Sublist (get_devices [] []) :=
  devices_sorted_c8.2.2.1 [] [] [] List.Pairwise.nil (List.nil_sublist _)

theorem reconcile_c3_witness :
    enrichedDevices
        [{ name := "Pump House", chip_id := "c", platform := "p",
           display := "d", ip := "i", status := "s", last_update := "u" }]
        [("Pump-House", [])]
      = specReconcile
        [{ name := "Pump House", chip_id := "c", platform := "p",
           display := "d", ip := "i", status := "s", last_update := "u" }]
        [("Pump-House", [])] ∧
    ({ name := "Pump House", chip_id := "c", platform := "p", display := "d",
       ip := "i", status := "s", last_update := some "u", mqtt_state := [],
       mqtt_name := "Pump-House", online := true } : EnrichedDevice).online
      = true :=
  ⟨(reconcile_c3 _ _).1,
   (reconcile_c3
      [{ name := "Pump House", chip_id := "c", platform := "p",
         display := "d", ip := "i", status := "s", last_update := "u" }]
      [("Pump-House", [])]).2 _ (List.mem_cons_self _ _)⟩
